import Mathlib

/-!
Shallow embedding of the pngme PNG-chunk core (src/chunk_type.rs and
src/chunk.rs).  Bytes are modelled as `Nat` (values < 256 where it matters),
byte buffers as `List Nat`, and the `u32` arithmetic of the source as `Nat`
with explicit bounds.  Rust panics (`unwrap` on an `Err`) are modelled by the
`ParseOutcome.crash` constructor, distinct from returned errors.
-/

set_option maxRecDepth 4000

namespace Pngme

/-- Model of `u32::from_be_bytes` on four bytes (each < 256). -/
def fromBE4 (b0 b1 b2 b3 : Nat) : Nat :=
  ((b0 * 256 + b1) * 256 + b2) * 256 + b3

/-- Model of `u32::to_be_bytes` of a value < 2^32. -/
def toBE4 (n : Nat) : List Nat :=
  [n / 16777216 % 256, n / 65536 % 256, n / 256 % 256, n % 256]

/-- The reflected CRC-32 polynomial 0xEDB88320 used by CRC-32/ISO-HDLC. -/
def crcPoly : Nat := 0xEDB88320

/-- One bit step of the reflected CRC-32 loop. -/
def crcStep (r : Nat) : Nat :=
  if r % 2 == 1 then (r / 2) ^^^ crcPoly else r / 2

/-- Fold one data byte into the CRC register (xor, then 8 bit steps). -/
def crcUpdate (r b : Nat) : Nat :=
  crcStep (crcStep (crcStep (crcStep (crcStep (crcStep (crcStep (crcStep (r ^^^ b))))))))

/-- CRC-32/ISO-HDLC: init 0xFFFFFFFF, reflected poly 0xEDB88320,
final xor 0xFFFFFFFF.  This is `crc::Crc::<u32>::new(&crc::CRC_32_ISO_HDLC)`
as used by `Chunk::crc` in src/chunk.rs. -/
def crc32 (data : List Nat) : Nat :=
  (data.foldl crcUpdate 0xFFFFFFFF) ^^^ 0xFFFFFFFF

/-- Model of `ChunkType` from src/chunk_type.rs: exactly four raw bytes. -/
structure ChunkType where
  b0 : Nat
  b1 : Nat
  b2 : Nat
  b3 : Nat
deriving DecidableEq, Repr

/-- Method `ChunkType::bytes`: the raw bytes, in order. -/
def ChunkType.bytes (c : ChunkType) : List Nat := [c.b0, c.b1, c.b2, c.b3]

/-- Method `ChunkType::is_critical`: bit 5 of the first byte is 0. -/
def ChunkType.is_critical (c : ChunkType) : Bool :=
  (c.b0 >>> 5) &&& 1 == 0

/-- Method `ChunkType::is_public`: bit 5 of the second byte is 0. -/
def ChunkType.is_public (c : ChunkType) : Bool :=
  (c.b1 >>> 5) &&& 1 == 0

/-- Method `ChunkType::is_reserved_bit_valid`: bit 5 of the third byte is 0. -/
def ChunkType.is_reserved_bit_valid (c : ChunkType) : Bool :=
  (c.b2 >>> 5) &&& 1 == 0

/-- Method `ChunkType::is_safe_to_copy`: bit 5 of the fourth byte is 1. -/
def ChunkType.is_safe_to_copy (c : ChunkType) : Bool :=
  (c.b3 >>> 5) &&& 1 == 1

/-- Method `ChunkType::is_valid_byte`: ASCII letter (65-90 or 97-122). -/
def ChunkType.is_valid_byte (byte : Nat) : Bool :=
  (65 ≤ byte && byte ≤ 90) || (97 ≤ byte && byte ≤ 122)

/-- Method `ChunkType::is_valid`: reserved bit valid and all four bytes letters. -/
def ChunkType.is_valid (c : ChunkType) : Bool :=
  c.is_reserved_bit_valid && c.bytes.all ChunkType.is_valid_byte

/-- Model of `<ChunkType as TryFrom<[u8;4]>>::try_from` (src/chunk_type.rs): the
array constructor, which checks `is_valid` (letters and reserved bit). -/
def ChunkType.try_from (b0 b1 b2 b3 : Nat) : Except String ChunkType :=
  let possible_chunk : ChunkType := ⟨b0, b1, b2, b3⟩
  if possible_chunk.is_valid then .ok possible_chunk
  else .error "Invalid chunk when converting from array (Chunk bytes not within upper and lowercase ASCII letters or third byte not uppercase)"

/-- Model of `<ChunkType as FromStr>::from_str` (src/chunk_type.rs), with the input
string given as its byte sequence: requires length 4 and every byte an ASCII
letter, but does NOT check the reserved-bit rule. -/
def ChunkType.from_str (s : List Nat) : Except String ChunkType :=
  match s with
  | [b0, b1, b2, b3] =>
    if [b0, b1, b2, b3].all ChunkType.is_valid_byte then .ok ⟨b0, b1, b2, b3⟩
    else .error "Invalid chunk when converting from string literal (Chunk bytes not within upper and lowercase ASCII letters)"
  | _ => .error "The chunk lenght is not 4 bytes"

/-- Model of `Chunk` from src/chunk.rs: a chunk type plus payload bytes. -/
structure Chunk where
  chunk_type : ChunkType
  chunk_data : List Nat
deriving DecidableEq, Repr

/-- Constructor `Chunk::new`. -/
def Chunk.new (chunk_type : ChunkType) (data : List Nat) : Chunk :=
  ⟨chunk_type, data⟩

/-- Method `Chunk::data`. -/
def Chunk.data (c : Chunk) : List Nat := c.chunk_data

/-- Method `Chunk::length`: the payload byte count.  (The source converts to `u32`
with `try_into().unwrap()`, so it is faithful only below 2^32; theorems that
need the `u32` representation carry that bound as a hypothesis.) -/
def Chunk.length (c : Chunk) : Nat := c.data.length

/-- Method `Chunk::crc`: CRC-32/ISO-HDLC over type bytes followed by payload. -/
def Chunk.crc (c : Chunk) : Nat := crc32 (c.chunk_type.bytes ++ c.data)

/-- Method `Chunk::as_bytes`: big-endian length, type bytes, payload, big-endian CRC. -/
def Chunk.as_bytes (c : Chunk) : List Nat :=
  toBE4 c.length ++ c.chunk_type.bytes ++ c.data ++ toBE4 c.crc

/-- Outcome of `<Chunk as TryFrom<&[u8]>>::try_from`: a returned chunk, a
returned error, or a panic (`unwrap` on an `Err` inside the function). -/
inductive ParseOutcome where
  | ok (c : Chunk)
  | err (msg : String)
  | crash (msg : String)
deriving DecidableEq, Repr

/-- The declared payload length: the first four bytes, big-endian. -/
def declaredLength (bytes : List Nat) : Nat :=
  fromBE4 (bytes.getD 0 0) (bytes.getD 1 0) (bytes.getD 2 0) (bytes.getD 3 0)

/-- The payload field: `declaredLength` bytes after the 8-byte header. -/
def payloadField (bytes : List Nat) : List Nat :=
  (bytes.drop 8).take (declaredLength bytes)

/-- The embedded CRC field: four big-endian bytes after the payload. -/
def crcFieldVal (bytes : List Nat) : Nat :=
  fromBE4 ((bytes.drop (8 + declaredLength bytes)).getD 0 0)
    ((bytes.drop (8 + declaredLength bytes)).getD 1 0)
    ((bytes.drop (8 + declaredLength bytes)).getD 2 0)
    ((bytes.drop (8 + declaredLength bytes)).getD 3 0)

/-- Model of `<Chunk as TryFrom<&[u8]>>::try_from` (src/chunk.rs).  The reads happen
in source order: length, type (validated with `.unwrap()`, hence `crash` on an
invalid type), payload (`read_exact(..).unwrap()`, hence `crash` when fewer
than `L` bytes remain), CRC (likewise), then the CRC comparison. -/
def Chunk.try_from (bytes : List Nat) : ParseOutcome :=
  if bytes.length < 12 then .err "Given vector is too short"
  else
    let data_length := declaredLength bytes
    match ChunkType.try_from (bytes.getD 4 0) (bytes.getD 5 0) (bytes.getD 6 0) (bytes.getD 7 0) with
    | .error e => .crash e
    | .ok chunk_type =>
      if bytes.length < 8 + data_length then .crash "failed to fill whole buffer"
      else
        let chunk_data := payloadField bytes
        if bytes.length < 12 + data_length then .crash "failed to fill whole buffer"
        else
          let crc := crcFieldVal bytes
          let possible_chunk : Chunk := ⟨chunk_type, chunk_data⟩
          if possible_chunk.crc == crc then .ok possible_chunk
          else .err "Given CRC does not match with computed crc"

/-- The 42-byte ASCII payload of the repository's test fixture,
"This is where your secret message will be!". -/
def secretMessage : List Nat :=
  [84, 104, 105, 115, 32, 105, 115, 32, 119, 104, 101, 114, 101, 32, 121, 111,
   117, 114, 32, 115, 101, 99, 114, 101, 116, 32, 109, 101, 115, 115, 97, 103,
   101, 32, 119, 105, 108, 108, 32, 98, 101, 33]

/-- Decidable equality for `Except`, so concrete constructor results can be
checked by evaluation. -/
instance {ε α : Type} [DecidableEq ε] [DecidableEq α] : DecidableEq (Except ε α) := fun x y =>
  match x, y with
  | .error e, .error f =>
    if h : e = f then .isTrue (congrArg Except.error h)
    else .isFalse (fun hh => h (by injection hh))
  | .error _, .ok _ => .isFalse (fun hh => Except.noConfusion hh)
  | .ok _, .error _ => .isFalse (fun hh => Except.noConfusion hh)
  | .ok a, .ok b =>
    if h : a = b then .isTrue (congrArg Except.ok h)
    else .isFalse (fun hh => h (by injection hh))

/-- A list with at least four elements starts with its first four `getD` values. -/
lemma take4_eq : ∀ (l : List Nat), 4 ≤ l.length →
    l.take 4 = [l.getD 0 0, l.getD 1 0, l.getD 2 0, l.getD 3 0]
  | _ :: _ :: _ :: _ :: _, _ => rfl
  | [], h => by simp at h
  | [_], h => by simp at h
  | [_, _], h => by simp at h
  | [_, _, _], h => by simp at h

lemma getD_mem (l : List Nat) (i : Nat) (h : i < l.length) : l.getD i 0 ∈ l := by
  rw [List.getD_eq_getElem l 0 h]
  exact List.getElem_mem h

/-- Lemma: `ChunkType.try_from` succeeds exactly on valid bytes, returning them. -/
lemma ChunkType.try_from_eq_ok_iff (b0 b1 b2 b3 : Nat) (ct : ChunkType) :
    ChunkType.try_from b0 b1 b2 b3 = .ok ct ↔
      (ChunkType.mk b0 b1 b2 b3).is_valid = true ∧ ct = ⟨b0, b1, b2, b3⟩ := by
  by_cases hv : (ChunkType.mk b0 b1 b2 b3).is_valid = true
  · constructor
    · intro h
      simp only [ChunkType.try_from, hv, if_true] at h
      injection h with h2
      exact ⟨hv, h2.symm⟩
    · rintro ⟨_, rfl⟩
      simp [ChunkType.try_from, hv]
  · constructor
    · intro h
      simp [ChunkType.try_from, hv] at h
    · rintro ⟨hv2, _⟩
      exact absurd hv2 hv

/-- Unfolding the parse when the buffer is long enough and the type field is
invalid: the `unwrap` panics. -/
lemma try_from_eq_of_type_error (bytes : List Nat) (e : String)
    (h12 : ¬ bytes.length < 12)
    (hm : ChunkType.try_from (bytes.getD 4 0) (bytes.getD 5 0) (bytes.getD 6 0) (bytes.getD 7 0) = .error e) :
    Chunk.try_from bytes = .crash e := by
  unfold Chunk.try_from
  rw [if_neg h12, hm]

/-- Unfolding the parse when the buffer is long enough and the type field is
valid: only the length guards and the CRC comparison remain. -/
lemma try_from_eq_of_type_ok (bytes : List Nat) (ct : ChunkType)
    (h12 : ¬ bytes.length < 12)
    (hm : ChunkType.try_from (bytes.getD 4 0) (bytes.getD 5 0) (bytes.getD 6 0) (bytes.getD 7 0) = .ok ct) :
    Chunk.try_from bytes =
      if bytes.length < 8 + declaredLength bytes then .crash "failed to fill whole buffer"
      else if bytes.length < 12 + declaredLength bytes then .crash "failed to fill whole buffer"
      else if Chunk.crc ⟨ct, payloadField bytes⟩ == crcFieldVal bytes
        then .ok ⟨ct, payloadField bytes⟩
        else .err "Given CRC does not match with computed crc" := by
  unfold Chunk.try_from
  rw [if_neg h12, hm]

/-- Inversion: everything a successful parse tells us about its input. -/
lemma try_from_ok_elim (bytes : List Nat) (c : Chunk)
    (h : Chunk.try_from bytes = .ok c) :
    12 + declaredLength bytes ≤ bytes.length ∧
    (ChunkType.mk (bytes.getD 4 0) (bytes.getD 5 0) (bytes.getD 6 0) (bytes.getD 7 0)).is_valid = true ∧
    c = ⟨⟨bytes.getD 4 0, bytes.getD 5 0, bytes.getD 6 0, bytes.getD 7 0⟩, payloadField bytes⟩ ∧
    Chunk.crc c = crcFieldVal bytes := by
  by_cases h12 : bytes.length < 12
  · unfold Chunk.try_from at h
    rw [if_pos h12] at h
    exact absurd h (by simp)
  · rcases hm : ChunkType.try_from (bytes.getD 4 0) (bytes.getD 5 0) (bytes.getD 6 0) (bytes.getD 7 0) with e | ct
    · rw [try_from_eq_of_type_error bytes e h12 hm] at h
      exact absurd h (by simp)
    · rw [try_from_eq_of_type_ok bytes ct h12 hm] at h
      rw [ChunkType.try_from_eq_ok_iff] at hm
      obtain ⟨hv, hct⟩ := hm
      by_cases h8 : bytes.length < 8 + declaredLength bytes
      · rw [if_pos h8] at h
        exact absurd h (by simp)
      · rw [if_neg h8] at h
        by_cases hL : bytes.length < 12 + declaredLength bytes
        · rw [if_pos hL] at h
          exact absurd h (by simp)
        · rw [if_neg hL] at h
          by_cases hc : Chunk.crc ⟨ct, payloadField bytes⟩ == crcFieldVal bytes
          · rw [if_pos hc] at h
            have hceq : c = ⟨ct, payloadField bytes⟩ := by
              injection h with h2
              exact h2.symm
            refine ⟨by omega, hv, by rw [hceq, hct], ?_⟩
            rw [hceq]
            simpa using hc
          · rw [if_neg hc] at h
            exact absurd h (by simp)

/-- Introduction: the conditions under which parsing succeeds. -/
lemma try_from_ok_intro (bytes : List Nat)
    (hv : (ChunkType.mk (bytes.getD 4 0) (bytes.getD 5 0) (bytes.getD 6 0) (bytes.getD 7 0)).is_valid = true)
    (hlen : 12 + declaredLength bytes ≤ bytes.length)
    (hcrc : Chunk.crc ⟨⟨bytes.getD 4 0, bytes.getD 5 0, bytes.getD 6 0, bytes.getD 7 0⟩, payloadField bytes⟩ = crcFieldVal bytes) :
    Chunk.try_from bytes =
      .ok ⟨⟨bytes.getD 4 0, bytes.getD 5 0, bytes.getD 6 0, bytes.getD 7 0⟩, payloadField bytes⟩ := by
  have hm : ChunkType.try_from (bytes.getD 4 0) (bytes.getD 5 0) (bytes.getD 6 0) (bytes.getD 7 0) =
      .ok ⟨bytes.getD 4 0, bytes.getD 5 0, bytes.getD 6 0, bytes.getD 7 0⟩ := by
    rw [ChunkType.try_from_eq_ok_iff]
    exact ⟨hv, rfl⟩
  rw [try_from_eq_of_type_ok bytes ⟨bytes.getD 4 0, bytes.getD 5 0, bytes.getD 6 0, bytes.getD 7 0⟩ (by omega) hm]
  rw [if_neg (by omega), if_neg (by omega), if_pos (Nat.beq_eq_true_eq _ _ |>.mpr hcrc)]

/-- Evaluation of the CRC register chain for the repository test fixture. -/
lemma crc32_fixture : crc32 ([82, 117, 83, 116] ++ secretMessage) = 2882656334 := by
  have s0 : crcUpdate 4294967295 82 = 2828542122 := by decide
  have s1 : crcUpdate 2828542122 117 = 381966181 := by decide
  have s2 : crcUpdate 381966181 83 = 3484176846 := by decide
  have s3 : crcUpdate 3484176846 116 = 729544387 := by decide
  have s4 : crcUpdate 729544387 84 = 1849720081 := by decide
  have s5 : crcUpdate 1849720081 104 = 699894245 := by decide
  have s6 : crcUpdate 699894245 105 = 3827792002 := by decide
  have s7 : crcUpdate 3827792002 115 = 3395216882 := by decide
  have s8 : crcUpdate 3395216882 32 = 1746398493 := by decide
  have s9 : crcUpdate 1746398493 105 = 1459659464 := by decide
  have s10 : crcUpdate 1459659464 115 = 1558473382 := by decide
  have s11 : crcUpdate 1558473382 32 = 76006015 := by decide
  have s12 : crcUpdate 76006015 119 = 249499632 := by decide
  have s13 : crcUpdate 249499632 104 = 4275750009 := by decide
  have s14 : crcUpdate 4275750009 101 = 352290443 := by decide
  have s15 : crcUpdate 352290443 114 = 3296048446 := by decide
  have s16 : crcUpdate 3296048446 101 = 4236115401 := by decide
  have s17 : crcUpdate 4236115401 32 = 3643418401 := by decide
  have s18 : crcUpdate 3643418401 121 = 1701442529 := by decide
  have s19 : crcUpdate 1701442529 111 = 174442452 := by decide
  have s20 : crcUpdate 174442452 117 = 2715547321 := by decide
  have s21 : crcUpdate 2715547321 114 = 202883278 := by decide
  have s22 : crcUpdate 202883278 32 = 1203689663 := by decide
  have s23 : crcUpdate 1203689663 115 = 2459250755 := by decide
  have s24 : crcUpdate 2459250755 101 = 3533639885 := by decide
  have s25 : crcUpdate 3533639885 99 = 834408959 := by decide
  have s26 : crcUpdate 834408959 114 = 2469938060 := by decide
  have s27 : crcUpdate 2469938060 101 = 3645203103 := by decide
  have s28 : crcUpdate 3645203103 116 = 922844818 := by decide
  have s29 : crcUpdate 922844818 32 = 626578398 := by decide
  have s30 : crcUpdate 626578398 109 = 1380825829 := by decide
  have s31 : crcUpdate 1380825829 101 = 3991588506 := by decide
  have s32 : crcUpdate 3991588506 115 = 3644567570 := by decide
  have s33 : crcUpdate 3644567570 115 = 980183678 := by decide
  have s34 : crcUpdate 980183678 97 = 2368889247 := by decide
  have s35 : crcUpdate 2368889247 103 = 3018541135 := by decide
  have s36 : crcUpdate 3018541135 101 = 3674743454 := by decide
  have s37 : crcUpdate 3674743454 32 = 738367145 := by decide
  have s38 : crcUpdate 738367145 119 = 1632107845 := by decide
  have s39 : crcUpdate 1632107845 105 = 850995998 := by decide
  have s40 : crcUpdate 850995998 108 = 3191449915 := by decide
  have s41 : crcUpdate 3191449915 108 = 4122082814 := by decide
  have s42 : crcUpdate 4122082814 32 = 1637764654 := by decide
  have s43 : crcUpdate 1637764654 98 = 2131465205 := by decide
  have s44 : crcUpdate 2131465205 101 = 4033910999 := by decide
  have s45 : crcUpdate 4033910999 33 = 1412310961 := by decide
  show (List.foldl crcUpdate 4294967295 ([82, 117, 83, 116] ++ secretMessage)) ^^^ 4294967295 = 2882656334
  simp only [secretMessage, List.cons_append, List.nil_append]
  simp only [List.foldl_cons, List.foldl_nil, s0, s1, s2, s3, s4, s5, s6, s7, s8, s9, s10, s11, s12, s13, s14, s15, s16, s17, s18, s19, s20, s21, s22, s23, s24, s25, s26, s27, s28, s29, s30, s31, s32, s33, s34, s35, s36, s37, s38, s39, s40, s41, s42, s43, s44, s45]
  decide

/-- Evaluation of the CRC of the bare "RuSt" type bytes. -/
lemma crc32_rust_bytes : crc32 [82, 117, 83, 116] = 3565422908 := by decide

/-! ### Helper lemmas -/

/-- Decoding the four big-endian bytes of a value below 2^32 recovers it. -/
lemma fromBE4_toBE4 (n : Nat) (h : n < 4294967296) :
    fromBE4 (n / 16777216 % 256) (n / 65536 % 256) (n / 256 % 256) (n % 256) = n := by
  unfold fromBE4
  omega

/-- Encoding a decoded 4-byte big-endian value recovers the bytes. -/
lemma toBE4_fromBE4 (b0 b1 b2 b3 : Nat)
    (h0 : b0 < 256) (h1 : b1 < 256) (h2 : b2 < 256) (h3 : b3 < 256) :
    toBE4 (fromBE4 b0 b1 b2 b3) = [b0, b1, b2, b3] := by
  simp only [toBE4, fromBE4, List.cons.injEq, and_true]
  omega

lemma fromBE4_lt (b0 b1 b2 b3 : Nat)
    (h0 : b0 < 256) (h1 : b1 < 256) (h2 : b2 < 256) (h3 : b3 < 256) :
    fromBE4 b0 b1 b2 b3 < 4294967296 := by
  unfold fromBE4
  omega

lemma xor_lt_u32 (x y : Nat) (hx : x < 4294967296) (hy : y < 4294967296) :
    x ^^^ y < 4294967296 := by
  have hx2 : x < 2 ^ 32 := by simpa using hx
  have hy2 : y < 2 ^ 32 := by simpa using hy
  have h := Nat.xor_lt_two_pow hx2 hy2
  simpa using h

lemma crcStep_lt (r : Nat) (h : r < 4294967296) : crcStep r < 4294967296 := by
  unfold crcStep crcPoly
  split
  · exact xor_lt_u32 _ _ (by omega) (by norm_num)
  · omega

lemma crcUpdate_lt (r b : Nat) (hr : r < 4294967296) (hb : b < 256) :
    crcUpdate r b < 4294967296 := by
  unfold crcUpdate
  have hx : r ^^^ b < 4294967296 := xor_lt_u32 _ _ hr (by omega)
  exact crcStep_lt _ (crcStep_lt _ (crcStep_lt _ (crcStep_lt _ (crcStep_lt _
    (crcStep_lt _ (crcStep_lt _ (crcStep_lt _ hx)))))))

/-- The CRC register stays below 2^32 on byte-valued input. -/
lemma crc32_lt (l : List Nat) (h : ∀ x ∈ l, x < 256) : crc32 l < 4294967296 := by
  unfold crc32
  have key : ∀ (l : List Nat), (∀ x ∈ l, x < 256) → ∀ (r : Nat), r < 4294967296 →
      l.foldl crcUpdate r < 4294967296 := by
    intro l
    induction l with
    | nil => intro _ r hr; simpa using hr
    | cons b t ih =>
      intro hmem r hr
      simp only [List.foldl_cons]
      exact ih (fun x hx => hmem x (List.mem_cons_of_mem _ hx))
        _ (crcUpdate_lt r b hr (hmem b (List.mem_cons_self _ _)))
  exact xor_lt_u32 _ _ (key l h 4294967295 (by norm_num)) (by norm_num)

/-! ### Claim theorems -/

/-- C9: the byte array [82,117,83,116] ("RuSt") constructs successfully via
the array constructor, and the resulting code is critical, not public, has a
valid reserved bit, and is safe to copy. -/
theorem c9_rust_type_properties :
    ChunkType.try_from 82 117 83 116 = .ok ⟨82, 117, 83, 116⟩ ∧
    (ChunkType.mk 82 117 83 116).is_critical = true ∧
    (ChunkType.mk 82 117 83 116).is_public = false ∧
    (ChunkType.mk 82 117 83 116).is_reserved_bit_valid = true ∧
    (ChunkType.mk 82 117 83 116).is_safe_to_copy = true := by
  decide

/-- C8: the chunk built by `Chunk::new` from type code "RuSt" and the 42-byte
fixture payload has length 42 and CRC 2882656334. -/
theorem c8_fixture_length_and_crc :
    (Chunk.new ⟨82, 117, 83, 116⟩ secretMessage).length = 42 ∧
    (Chunk.new ⟨82, 117, 83, 116⟩ secretMessage).crc = 2882656334 := by
  refine ⟨by decide, ?_⟩
  show crc32 ([82, 117, 83, 116] ++ secretMessage) = 2882656334
  exact crc32_fixture

/-- C7: for any four ASCII-letter bytes whose third byte has bit 5 set, the
array constructor fails while the string constructor succeeds with exactly
those bytes, and the produced code reports an invalid reserved bit. -/
theorem c7_constructor_asymmetry (b0 b1 b2 b3 : Nat)
    (h0 : ChunkType.is_valid_byte b0 = true) (h1 : ChunkType.is_valid_byte b1 = true)
    (h2 : ChunkType.is_valid_byte b2 = true) (h3 : ChunkType.is_valid_byte b3 = true)
    (hbit : (b2 >>> 5) &&& 1 = 1) :
    ChunkType.try_from b0 b1 b2 b3 = .error "Invalid chunk when converting from array (Chunk bytes not within upper and lowercase ASCII letters or third byte not uppercase)" ∧
    ChunkType.from_str [b0, b1, b2, b3] = .ok ⟨b0, b1, b2, b3⟩ ∧
    (ChunkType.mk b0 b1 b2 b3).is_reserved_bit_valid = false := by
  have hres : (ChunkType.mk b0 b1 b2 b3).is_reserved_bit_valid = false := by
    simp [ChunkType.is_reserved_bit_valid, hbit]
  have hval : (ChunkType.mk b0 b1 b2 b3).is_valid = false := by
    simp [ChunkType.is_valid, hres]
  refine ⟨?_, ?_, hres⟩
  · simp [ChunkType.try_from, hval]
  · simp [ChunkType.from_str, h0, h1, h2, h3]

/-- Witness for C7 at the concrete bytes [82,117,115,116] ("Rust"). -/
theorem c7_constructor_asymmetry_witness :
    ChunkType.try_from 82 117 115 116 = .error "Invalid chunk when converting from array (Chunk bytes not within upper and lowercase ASCII letters or third byte not uppercase)" ∧
    ChunkType.from_str [82, 117, 115, 116] = .ok ⟨82, 117, 115, 116⟩ ∧
    (ChunkType.mk 82 117 115 116).is_reserved_bit_valid = false :=
  c7_constructor_asymmetry 82 117 115 116 (by decide) (by decide) (by decide)
    (by decide) (by decide)

/-- C6: any buffer of fewer than 12 bytes makes parsing fail with the
too-short error, regardless of its contents. -/
theorem c6_too_short (bytes : List Nat) (h : bytes.length < 12) :
    Chunk.try_from bytes = .err "Given vector is too short" := by
  unfold Chunk.try_from
  simp [h]

/-- Witness for C6 at a concrete 3-byte buffer. -/
theorem c6_too_short_witness :
    Chunk.try_from [0, 1, 2] = .err "Given vector is too short" :=
  c6_too_short [0, 1, 2] (by decide)

/-- C3 (failing input): a 12-byte buffer whose type field "0000" is invalid
makes the source panic (`ChunkType::try_from(..).unwrap()` on an `Err`)
instead of returning an `InvalidChunkType` error. -/
theorem c3_invalid_type_crashes :
    Chunk.try_from [0, 0, 0, 0, 48, 48, 48, 48, 0, 0, 0, 0] =
      .crash "Invalid chunk when converting from array (Chunk bytes not within upper and lowercase ASCII letters or third byte not uppercase)" := by
  decide

/-- C2 (failing input): a 12-byte buffer declaring payload length 5 with only
4 bytes remaining makes the source panic (`read_exact(..).unwrap()` on an
UnexpectedEof `Err`) instead of returning a `TruncatedPayload` error. -/
theorem c2_truncated_payload_crashes :
    Chunk.try_from [0, 0, 0, 5, 82, 117, 83, 116, 0, 0, 0, 0] =
      .crash "failed to fill whole buffer" := by
  decide

/-- C1 (counterexample): the string constructor accepts "Rust"
([82,117,115,116], lowercase third byte), but parsing the serialized bytes of
the chunk built from it panics at the type check instead of succeeding, so the
round-trip fails for string-constructed type codes with an invalid reserved
bit. -/
theorem c1_roundtrip_counterexample :
    ChunkType.from_str [82, 117, 115, 116] = .ok ⟨82, 117, 115, 116⟩ ∧
    Chunk.try_from (Chunk.as_bytes (Chunk.new ⟨82, 117, 115, 116⟩ [])) =
      .crash "Invalid chunk when converting from array (Chunk bytes not within upper and lowercase ASCII letters or third byte not uppercase)" := by
  decide

/-- C5: once parsing reaches the CRC comparison (buffer at least 12 bytes,
valid type field, at least 12+L bytes in total), a CRC mismatch returns the
mismatch error and no record, and a CRC match returns the fully constructed
record: there is no partial success. -/
theorem c5_crc_check_no_partial_success (bytes : List Nat) (ct : ChunkType)
    (h12 : 12 ≤ bytes.length)
    (hct : ChunkType.try_from (bytes.getD 4 0) (bytes.getD 5 0) (bytes.getD 6 0) (bytes.getD 7 0) = .ok ct)
    (hlen : 12 + declaredLength bytes ≤ bytes.length) :
    (Chunk.crc ⟨ct, payloadField bytes⟩ = crcFieldVal bytes →
        Chunk.try_from bytes = .ok ⟨ct, payloadField bytes⟩) ∧
    (Chunk.crc ⟨ct, payloadField bytes⟩ ≠ crcFieldVal bytes →
        Chunk.try_from bytes = .err "Given CRC does not match with computed crc") := by
  have hmk := hct
  rw [ChunkType.try_from_eq_ok_iff] at hmk
  obtain ⟨hv, hcteq⟩ := hmk
  constructor <;> intro hc
  · have h := try_from_ok_intro bytes hv hlen (by rw [← hcteq]; exact hc)
    rw [← hcteq] at h
    exact h
  · rw [try_from_eq_of_type_ok bytes ct (by omega) hct,
      if_neg (by omega), if_neg (by omega), if_neg (by simpa using hc)]

/-- Witness for C5 at a concrete buffer: type "RuSt", empty payload, and the
correct CRC embedded, so the CRC comparison succeeds. -/
theorem c5_crc_check_witness :
    (Chunk.crc ⟨⟨82, 117, 83, 116⟩, payloadField ([0, 0, 0, 0, 82, 117, 83, 116] ++ toBE4 (crc32 [82, 117, 83, 116]))⟩ =
        crcFieldVal ([0, 0, 0, 0, 82, 117, 83, 116] ++ toBE4 (crc32 [82, 117, 83, 116])) →
      Chunk.try_from ([0, 0, 0, 0, 82, 117, 83, 116] ++ toBE4 (crc32 [82, 117, 83, 116])) =
        .ok ⟨⟨82, 117, 83, 116⟩, payloadField ([0, 0, 0, 0, 82, 117, 83, 116] ++ toBE4 (crc32 [82, 117, 83, 116]))⟩) ∧
    (Chunk.crc ⟨⟨82, 117, 83, 116⟩, payloadField ([0, 0, 0, 0, 82, 117, 83, 116] ++ toBE4 (crc32 [82, 117, 83, 116]))⟩ ≠
        crcFieldVal ([0, 0, 0, 0, 82, 117, 83, 116] ++ toBE4 (crc32 [82, 117, 83, 116])) →
      Chunk.try_from ([0, 0, 0, 0, 82, 117, 83, 116] ++ toBE4 (crc32 [82, 117, 83, 116])) =
        .err "Given CRC does not match with computed crc") :=
  c5_crc_check_no_partial_success ([0, 0, 0, 0, 82, 117, 83, 116] ++ toBE4 (crc32 [82, 117, 83, 116]))
    ⟨82, 117, 83, 116⟩ (by decide) (by decide) (by decide)

/-- C1 (amended): round-trip for chunks whose type code satisfies the
array-constructor validity rules.  For such a type code and any byte payload
shorter than 2^32, parsing the serialized bytes succeeds and returns a record
with the same type code bytes, payload, and CRC. -/
theorem c1_roundtrip_valid_types (ct : ChunkType) (payload : List Nat)
    (hvalid : ct.is_valid = true)
    (hbytes : ∀ x ∈ payload, x < 256)
    (hlen : payload.length < 4294967296) :
    Chunk.try_from (Chunk.as_bytes (Chunk.new ct payload)) = .ok (Chunk.new ct payload) := by
  obtain ⟨b0, b1, b2, b3⟩ := ct
  have hb256 : b0 < 256 ∧ b1 < 256 ∧ b2 < 256 ∧ b3 < 256 := by
    have h := hvalid
    simp [ChunkType.is_valid, ChunkType.bytes, ChunkType.is_valid_byte,
      ChunkType.is_reserved_bit_valid, List.all_cons] at h
    omega
  have hK : crc32 ([b0, b1, b2, b3] ++ payload) < 4294967296 := by
    refine crc32_lt _ ?_
    intro x hx
    rcases List.mem_append.mp hx with hx | hx
    · simp at hx
      omega
    · exact hbytes x hx
  have hB : Chunk.as_bytes (Chunk.new (ChunkType.mk b0 b1 b2 b3) payload) =
      payload.length / 16777216 % 256 :: payload.length / 65536 % 256 ::
      payload.length / 256 % 256 :: payload.length % 256 ::
      b0 :: b1 :: b2 :: b3 ::
      (payload ++ toBE4 (crc32 ([b0, b1, b2, b3] ++ payload))) := by
    simp [Chunk.as_bytes, Chunk.new, Chunk.length, Chunk.data, Chunk.crc,
      ChunkType.bytes, toBE4, List.cons_append, List.nil_append, List.append_assoc]
  have hBlen : (Chunk.as_bytes (Chunk.new (ChunkType.mk b0 b1 b2 b3) payload)).length =
      12 + payload.length := by
    rw [hB]
    simp [toBE4, List.length_append]
    omega
  have hd : declaredLength (Chunk.as_bytes (Chunk.new (ChunkType.mk b0 b1 b2 b3) payload)) =
      payload.length := by
    rw [hB]
    show fromBE4 (payload.length / 16777216 % 256) (payload.length / 65536 % 256)
      (payload.length / 256 % 256) (payload.length % 256) = payload.length
    exact fromBE4_toBE4 payload.length hlen
  have hg4 : (Chunk.as_bytes (Chunk.new (ChunkType.mk b0 b1 b2 b3) payload)).getD 4 0 = b0 := by
    rw [hB]
    rfl
  have hg5 : (Chunk.as_bytes (Chunk.new (ChunkType.mk b0 b1 b2 b3) payload)).getD 5 0 = b1 := by
    rw [hB]
    rfl
  have hg6 : (Chunk.as_bytes (Chunk.new (ChunkType.mk b0 b1 b2 b3) payload)).getD 6 0 = b2 := by
    rw [hB]
    rfl
  have hg7 : (Chunk.as_bytes (Chunk.new (ChunkType.mk b0 b1 b2 b3) payload)).getD 7 0 = b3 := by
    rw [hB]
    rfl
  have hdrop8 : (Chunk.as_bytes (Chunk.new (ChunkType.mk b0 b1 b2 b3) payload)).drop 8 =
      payload ++ toBE4 (crc32 ([b0, b1, b2, b3] ++ payload)) := by
    rw [hB]
    rfl
  have hpay : payloadField (Chunk.as_bytes (Chunk.new (ChunkType.mk b0 b1 b2 b3) payload)) =
      payload := by
    unfold payloadField
    rw [hd, hdrop8, List.take_append_of_le_length (Nat.le_refl _), List.take_length]
  have hcf : crcFieldVal (Chunk.as_bytes (Chunk.new (ChunkType.mk b0 b1 b2 b3) payload)) =
      crc32 ([b0, b1, b2, b3] ++ payload) := by
    unfold crcFieldVal
    rw [hd]
    have hdropL : (Chunk.as_bytes (Chunk.new (ChunkType.mk b0 b1 b2 b3) payload)).drop
        (8 + payload.length) = toBE4 (crc32 ([b0, b1, b2, b3] ++ payload)) := by
      rw [← List.drop_drop, hdrop8, List.drop_left]
    rw [hdropL]
    show fromBE4 (crc32 ([b0, b1, b2, b3] ++ payload) / 16777216 % 256)
      (crc32 ([b0, b1, b2, b3] ++ payload) / 65536 % 256)
      (crc32 ([b0, b1, b2, b3] ++ payload) / 256 % 256)
      (crc32 ([b0, b1, b2, b3] ++ payload) % 256) = crc32 ([b0, b1, b2, b3] ++ payload)
    exact fromBE4_toBE4 _ hK
  have main := try_from_ok_intro (Chunk.as_bytes (Chunk.new (ChunkType.mk b0 b1 b2 b3) payload))
    (by rw [hg4, hg5, hg6, hg7]; exact hvalid)
    (by rw [hd, hBlen])
    (by rw [hg4, hg5, hg6, hg7, hpay, hcf]
        show crc32 ([b0, b1, b2, b3] ++ payload) = crc32 ([b0, b1, b2, b3] ++ payload)
        rfl)
  rw [hg4, hg5, hg6, hg7, hpay] at main
  exact main

/-- Witness for C1 at type code "RuSt" and the empty payload. -/
theorem c1_roundtrip_valid_types_witness :
    Chunk.try_from (Chunk.as_bytes (Chunk.new ⟨82, 117, 83, 116⟩ [])) =
      .ok (Chunk.new ⟨82, 117, 83, 116⟩ []) :=
  c1_roundtrip_valid_types ⟨82, 117, 83, 116⟩ [] (by decide) (by decide) (by decide)

lemma getD_drop (l : List Nat) (n i : Nat) : (l.drop n).getD i 0 = l.getD (n + i) 0 := by
  simp [List.getD_eq_getD_get?, List.get?_eq_getElem?, List.getElem?_drop]

/-- Any list is rebuilt from its four parse fields. -/
lemma rebuild_fields (l : List Nat) (L : Nat) :
    l.take 4 ++ (l.drop 4).take 4 ++ (l.drop 8).take L ++ l.drop (8 + L) = l := by
  have e1 : l.take 4 ++ l.drop 4 = l := List.take_append_drop 4 l
  have e2 : (l.drop 4).take 4 ++ (l.drop 4).drop 4 = l.drop 4 := List.take_append_drop 4 _
  have e3 : (l.drop 4).drop 4 = l.drop 8 := by rw [List.drop_drop]
  have e4 : (l.drop 8).take L ++ (l.drop 8).drop L = l.drop 8 := List.take_append_drop L _
  have e5 : (l.drop 8).drop L = l.drop (8 + L) := by rw [List.drop_drop]
  calc l.take 4 ++ (l.drop 4).take 4 ++ (l.drop 8).take L ++ l.drop (8 + L)
      = l.take 4 ++ ((l.drop 4).take 4 ++ ((l.drop 8).take L ++ l.drop (8 + L))) := by
        simp [List.append_assoc]
    _ = l := by rw [← e5, e4, ← e3, e2, e1]

/-- C4: if a byte buffer parses successfully and its length is exactly
12 plus its declared length, serializing the parsed record reproduces the
buffer byte for byte. -/
theorem c4_to_bytes_parse_idempotent (bytes : List Nat) (c : Chunk)
    (h256 : ∀ x ∈ bytes, x < 256)
    (hok : Chunk.try_from bytes = .ok c)
    (hexact : bytes.length = 12 + declaredLength bytes) :
    Chunk.as_bytes c = bytes := by
  obtain ⟨hlen, hv, hceq, hcrc⟩ := try_from_ok_elim bytes c hok
  have h12 : 12 ≤ bytes.length := by omega
  have hmem : ∀ i, i < bytes.length → bytes.getD i 0 < 256 :=
    fun i hi => h256 _ (getD_mem bytes i hi)
  have hlenpay : (payloadField bytes).length = declaredLength bytes := by
    unfold payloadField
    rw [List.length_take]
    simp only [List.length_drop]
    omega
  have h1 : toBE4 (Chunk.length c) = bytes.take 4 := by
    rw [hceq]
    show toBE4 (payloadField bytes).length = bytes.take 4
    rw [hlenpay]
    show toBE4 (declaredLength bytes) = bytes.take 4
    unfold declaredLength
    rw [toBE4_fromBE4 _ _ _ _ (hmem 0 (by omega)) (hmem 1 (by omega))
      (hmem 2 (by omega)) (hmem 3 (by omega))]
    rw [take4_eq bytes (by omega)]
  have h2 : (Chunk.chunk_type c).bytes = (bytes.drop 4).take 4 := by
    rw [hceq]
    show [bytes.getD 4 0, bytes.getD 5 0, bytes.getD 6 0, bytes.getD 7 0] = (bytes.drop 4).take 4
    rw [take4_eq (bytes.drop 4) (by simp only [List.length_drop]; omega)]
    simp [getD_drop]
  have h3 : Chunk.data c = (bytes.drop 8).take (declaredLength bytes) := by
    rw [hceq]
    rfl
  have h4 : toBE4 (Chunk.crc c) = bytes.drop (8 + declaredLength bytes) := by
    rw [hcrc]
    unfold crcFieldVal
    have hd4 : (bytes.drop (8 + declaredLength bytes)).length = 4 := by
      simp only [List.length_drop]
      omega
    rw [toBE4_fromBE4 _ _ _ _
      (by rw [getD_drop]; exact hmem _ (by omega))
      (by rw [getD_drop]; exact hmem _ (by omega))
      (by rw [getD_drop]; exact hmem _ (by omega))
      (by rw [getD_drop]; exact hmem _ (by omega))]
    rw [← take4_eq (bytes.drop (8 + declaredLength bytes)) (by omega)]
    rw [List.take_of_length_le (by omega)]
  show toBE4 c.length ++ c.chunk_type.bytes ++ c.data ++ toBE4 c.crc = bytes
  rw [h1, h2, h3, h4]
  exact rebuild_fields bytes (declaredLength bytes)

/-- Witness for C4 at a concrete exact-length buffer: type "RuSt", empty
payload, correct CRC. -/
theorem c4_to_bytes_parse_idempotent_witness :
    Chunk.as_bytes ⟨⟨82, 117, 83, 116⟩, payloadField ([0, 0, 0, 0, 82, 117, 83, 116] ++ toBE4 (crc32 [82, 117, 83, 116]))⟩ =
      [0, 0, 0, 0, 82, 117, 83, 116] ++ toBE4 (crc32 [82, 117, 83, 116]) :=
  c4_to_bytes_parse_idempotent ([0, 0, 0, 0, 82, 117, 83, 116] ++ toBE4 (crc32 [82, 117, 83, 116]))
    ⟨⟨82, 117, 83, 116⟩, payloadField ([0, 0, 0, 0, 82, 117, 83, 116] ++ toBE4 (crc32 [82, 117, 83, 116]))⟩
    (by decide) (by decide) (by decide)

/-- C10: a successful parse is unaffected by arbitrary trailing bytes: if a
buffer parses to a record, any extension of that buffer parses to the same
record, so the bytes beyond the CRC field are ignored. -/
theorem c10_trailing_bytes_ignored (bytes extra : List Nat) (c : Chunk)
    (hok : Chunk.try_from bytes = .ok c) :
    Chunk.try_from (bytes ++ extra) = .ok c := by
  obtain ⟨hlen, hv, hceq, hcrc⟩ := try_from_ok_elim bytes c hok
  have hg : ∀ i, i < bytes.length → (bytes ++ extra).getD i 0 = bytes.getD i 0 :=
    fun i hi => List.getD_append bytes extra 0 i hi
  have hdecl : declaredLength (bytes ++ extra) = declaredLength bytes := by
    unfold declaredLength
    rw [hg 0 (by omega), hg 1 (by omega), hg 2 (by omega), hg 3 (by omega)]
  have hpayl : payloadField (bytes ++ extra) = payloadField bytes := by
    unfold payloadField
    rw [hdecl, List.drop_append_of_le_length (by omega),
      List.take_append_of_le_length (by simp only [List.length_drop]; omega)]
  have hcf : crcFieldVal (bytes ++ extra) = crcFieldVal bytes := by
    unfold crcFieldVal
    rw [hdecl, List.drop_append_of_le_length (by omega),
      List.getD_append _ _ _ _ (by simp only [List.length_drop]; omega),
      List.getD_append _ _ _ _ (by simp only [List.length_drop]; omega),
      List.getD_append _ _ _ _ (by simp only [List.length_drop]; omega),
      List.getD_append _ _ _ _ (by simp only [List.length_drop]; omega)]
  have main := try_from_ok_intro (bytes ++ extra)
    (by rw [hg 4 (by omega), hg 5 (by omega), hg 6 (by omega), hg 7 (by omega)]; exact hv)
    (by rw [hdecl]; simp only [List.length_append]; omega)
    (by rw [hg 4 (by omega), hg 5 (by omega), hg 6 (by omega), hg 7 (by omega), hpayl, hcf,
          ← hceq]
        exact hcrc)
  rw [hg 4 (by omega), hg 5 (by omega), hg 6 (by omega), hg 7 (by omega), hpayl, ← hceq] at main
  exact main

/-- Witness for C10: the valid "RuSt" buffer with three trailing bytes. -/
theorem c10_trailing_bytes_ignored_witness :
    Chunk.try_from (([0, 0, 0, 0, 82, 117, 83, 116] ++ toBE4 (crc32 [82, 117, 83, 116])) ++ [9, 9, 9]) =
      .ok ⟨⟨82, 117, 83, 116⟩, payloadField ([0, 0, 0, 0, 82, 117, 83, 116] ++ toBE4 (crc32 [82, 117, 83, 116]))⟩ :=
  c10_trailing_bytes_ignored ([0, 0, 0, 0, 82, 117, 83, 116] ++ toBE4 (crc32 [82, 117, 83, 116])) [9, 9, 9]
    ⟨⟨82, 117, 83, 116⟩, payloadField ([0, 0, 0, 0, 82, 117, 83, 116] ++ toBE4 (crc32 [82, 117, 83, 116]))⟩
    (by decide)

end Pngme
